import Mathlib

/-!
Verification of the auto-terminal repository against its design
specification.

The repository ships one piece of executable logic under version control:
the validation script (`scripts/validate.ts`, src/unnamed/part_002), which
runs the four project checks and reports an aggregate exit code.  That
script is embedded below in the `Validation` namespace, translated
directly from the TypeScript source.

The Terminal Session & Completion Engine (PtyHandle, OutputBuffer,
CompletionDetector, TerminalSession, SessionManager) is specified in the
design document but its implementation is not present in the repository
sources; the `Core` namespace models those components from the
specification text so that the specified properties can be stated and
checked.  Every such definition carries a doc comment beginning
`Modelled from the spec:`.
-/

namespace Validation

/-- A validation step of the script: display name, executable and
arguments, mirroring the `ValidationStep` interface of the source. -/
structure ValidationStep where
  name : String
  command : String
  args : List String
deriving DecidableEq

/-- The four validation steps, in the fixed order declared by the
source's `steps` array: Type Check, Lint, Tests, Build. -/
def steps : List ValidationStep :=
  [ { name := "Type Check", command := "bun", args := ["run", "typecheck"] },
    { name := "Lint", command := "bun", args := ["run", "lint"] },
    { name := "Tests", command := "bun", args := ["test"] },
    { name := "Build", command := "bun", args := ["run", "build"] } ]

/-- The observable outcome of one `spawnSync` call: the process status
(`null` modelled as `none`) and the captured streams. -/
structure SpawnResult where
  status : Option Int
  stdout : String
  stderr : String

/-- One entry of the script's `results` array: step name, pass flag and,
for failed steps only, the captured output. -/
structure StepOutcome where
  step : String
  passed : Bool
  output : Option String
deriving DecidableEq

/-- One iteration of the script's main loop: `passed = (status === 0)`;
the result entry records output only when the step failed, taking
`stderr || stdout` (empty `stderr` falls through to `stdout`). -/
def runStep (spawn : ValidationStep → SpawnResult) (st : ValidationStep) :
    StepOutcome :=
  let r := spawn st
  if r.status = some 0 then
    { step := st.name, passed := true, output := none }
  else
    { step := st.name, passed := false,
      output := some (if r.stderr = "" then r.stdout else r.stderr) }

/-- The script's `results` array after the loop: one entry per step, in
the order of `steps`, with no short-circuit on failure. -/
def results (spawn : ValidationStep → SpawnResult) : List StepOutcome :=
  steps.map (runStep spawn)

/-- The script's `allPassed` accumulator: starts `true` and is and-ed
with each step's pass flag in order. -/
def allPassed (spawn : ValidationStep → SpawnResult) : Bool :=
  steps.foldl (fun acc st => acc && decide ((spawn st).status = some 0)) true

/-- The script's process exit code: `process.exit(0)` when `allPassed`,
otherwise `process.exit(1)`. -/
def exitCode (spawn : ValidationStep → SpawnResult) : Nat :=
  if allPassed spawn then 0 else 1

end Validation

namespace Core

/-- Modelled from the spec: the TerminalSession lifecycle states
`starting`, `ready`, `busy`, `closed` (§3, §4.5); the implementation of
TerminalSession is absent from the repository sources. -/
inductive SessionState where
  | starting
  | ready
  | busy
  | closed
deriving DecidableEq

/-- Modelled from the spec: the completion reasons of a
CommandExecution (§3): prompt match, marker match, timeout, exit code,
or killed by cancellation. -/
inductive CompletionReason where
  | promptMatched
  | markerMatched
  | timeout
  | exitCode
  | killed
deriving DecidableEq

/-- Modelled from the spec: the observable state of an OutputBuffer at
one evaluation instant (§4.2): accumulated text, number of chunks
received since the last reset, elapsed time since the last append
(`idleDuration`), and elapsed time since the command started. -/
structure BufferState where
  text : List Char
  chunkCount : Nat
  idleMs : Nat
  elapsedMs : Nat
deriving DecidableEq

/-- Modelled from the spec: a CompletionPolicy (§3): prompt pattern set
tried in fixed order, idle-timeout duration, whether sentinel markers
are injected, the end marker text, whether exit-code extraction is
requested, and the hard ceiling expressed in evaluation ticks (§4.3
rule 4). -/
structure CompletionPolicy where
  promptPatterns : List (List Char)
  idleTimeoutMs : Nat
  injectMarkers : Bool
  endMarker : List Char
  wantExitCode : Bool
  hardCeilingTicks : Nat
deriving DecidableEq

/-- Decimal value of a digit character. -/
def charVal (c : Char) : Nat :=
  c.toNat - 48

/-- Accumulate a digit string into a number, most significant first. -/
def digitsToNat (l : List Char) : Nat :=
  l.foldl (fun a c => a * 10 + charVal c) 0

/-- Fuel-driven decimal printer for exit codes (the `$?` value echoed
after the end marker). -/
def natToCharsAux : Nat → Nat → List Char
  | 0, _ => []
  | fuel + 1, n =>
    if n < 10 then [Nat.digitChar n]
    else natToCharsAux fuel (n / 10) ++ [Nat.digitChar (n % 10)]

/-- Decimal representation of a natural number as characters. -/
def natToChars (n : Nat) : List Char :=
  natToCharsAux (n + 1) n

/-- Split off the maximal leading run of digit characters. -/
def takeDigits : List Char → List Char × List Char
  | [] => ([], [])
  | c :: cs =>
    if c.isDigit then
      let p := takeDigits cs
      (c :: p.1, p.2)
    else ([], c :: cs)

/-- Whether a character list starts with a digit. -/
def headIsDigit : List Char → Bool
  | [] => false
  | c :: _ => c.isDigit

/-- Parse the maximal leading digit run as a number; `none` when the
text does not start with a digit. -/
def parseLeadingNat (l : List Char) : Option Nat :=
  let p := takeDigits l
  if p.1.isEmpty then none else some (digitsToNat p.1)

/-- The text after the first occurrence of `marker`, or `none` when the
marker does not occur. -/
def suffixAfter (marker : List Char) : List Char → Option (List Char)
  | [] => if marker.isEmpty then some [] else none
  | c :: cs =>
    if marker.isPrefixOf (c :: cs) then some (List.drop marker.length (c :: cs))
    else suffixAfter marker cs

/-- Modelled from the spec: marker-path detection (§4.3 rule 1): the end
marker followed by the trailing exit code is searched for in the
buffer; the implementation of CompletionDetector is absent from the
repository sources. -/
def markerExitCode (marker : List Char) (text : List Char) : Option Nat :=
  (suffixAfter marker text).bind parseLeadingNat

/-- Modelled from the spec: prompt-path detection (§4.3 rule 2): the
configured shell-prompt patterns are tried in order against the tail of
the buffer; the first match wins. -/
def promptHit (policy : CompletionPolicy) (b : BufferState) : Bool :=
  policy.promptPatterns.any (fun p => List.isSuffixOf p b.text)

/-- The verdict of one detector evaluation: why completion was declared
and the recovered exit code, if any. -/
structure DetectOutcome where
  reason : CompletionReason
  exitCode : Option Nat
deriving DecidableEq

/-- Modelled from the spec: one CompletionDetector evaluation over a
buffer state (§4.3 rules 1-3): the marker path is tried first and
pre-empts the others; else a prompt match after at least one chunk;
else the idle timeout; `none` when no rule fires (the hard ceiling,
rule 4, lives in the evaluation loop).  The CompletionDetector
implementation is absent from the repository sources. -/
def detect (policy : CompletionPolicy) (b : BufferState) : Option DetectOutcome :=
  match (if policy.injectMarkers then markerExitCode policy.endMarker b.text else none) with
  | some code => some { reason := .markerMatched, exitCode := some code }
  | none =>
    if promptHit policy b ∧ 1 ≤ b.chunkCount then
      some { reason := .promptMatched, exitCode := none }
    else if policy.idleTimeoutMs ≤ b.idleMs then
      some { reason := .timeout, exitCode := none }
    else none

/-- Modelled from the spec: the structured CommandResult returned by
`execute` (§6): optional exit code, captured output, duration, and the
completion reason. -/
structure CommandResult where
  exitCode : Option Nat
  output : List Char
  durationMs : Nat
  reason : CompletionReason
deriving DecidableEq

/-- Package a detector verdict and the buffer it fired on into a
CommandResult. -/
def finalize (b : BufferState) (d : DetectOutcome) : CommandResult :=
  { exitCode := d.exitCode, output := b.text, durationMs := b.elapsedMs,
    reason := d.reason }

/-- The hard-ceiling result (§4.3 rule 4): reason `timeout`, exit code
absent, output so far still returned. -/
def timeoutResult (b : BufferState) : CommandResult :=
  { exitCode := none, output := b.text, durationMs := b.elapsedMs,
    reason := .timeout }

/-- Modelled from the spec: the bounded completion-evaluation loop
(§4.3, §5): the detector is evaluated on every tick of the buffer
trace; when no rule fires before the fuel (the hard ceiling) runs out,
the ceiling declares completion with reason `timeout` — the loop is
structurally total, so `execute` never suspends unboundedly. -/
def detectLoop (policy : CompletionPolicy) (trace : Nat → BufferState) :
    Nat → Nat → CommandResult
  | 0, t => timeoutResult (trace t)
  | fuel + 1, t =>
    match detect policy (trace t) with
    | some d => finalize (trace t) d
    | none => detectLoop policy trace fuel (t + 1)

/-- Modelled from the spec: the error taxonomy crossing the session
boundary (§7). -/
inductive ExecError where
  | sessionBusy
  | closedHandle
  | notReady
  | sessionNotBusy
deriving DecidableEq

/-- Modelled from the spec: a TerminalSession (§3, §4.5): identity,
shell, lifecycle state, whether its exclusively-owned PtyHandle's OS
process is still alive, and its OutputBuffer.  The TerminalSession
implementation is absent from the repository sources. -/
structure Session where
  id : Nat
  shell : String
  state : SessionState
  ptyAlive : Bool
  buffer : BufferState
deriving DecidableEq

/-- Modelled from the spec: `execute(command, policy)` (§4.5, §5):
refused with `SessionBusy` while an execution is in flight, refused on a
closed or still-starting session; on a `Ready` session it runs the
bounded detection loop over the command's buffer trace and returns the
structured result, the session back in `Ready`. -/
def Session.execute (s : Session) (policy : CompletionPolicy)
    (trace : Nat → BufferState) : Except ExecError (Session × CommandResult) :=
  match s.state with
  | .busy => .error .sessionBusy
  | .closed => .error .closedHandle
  | .starting => .error .notReady
  | .ready => .ok (s, detectLoop policy trace policy.hardCeilingTicks 0)

/-- Modelled from the spec: cancellation of an in-flight `execute`
(§5): the process group is signalled, the session transitions back to
`Ready`, and the partial buffer content accumulated so far is returned
as the result (reason `killed`) rather than discarded. -/
def Session.cancel (s : Session) : Except ExecError (Session × CommandResult) :=
  match s.state with
  | .busy =>
    .ok ({ s with state := .ready },
      { exitCode := none, output := s.buffer.text,
        durationMs := s.buffer.elapsedMs, reason := .killed })
  | _ => .error .sessionNotBusy

/-- Modelled from the spec: `terminate` (§4.5, §4.1): the session
enters `Closed` and the PtyHandle's OS process is released, in every
lifecycle state including `Busy`. -/
def Session.terminate (s : Session) : Session :=
  { s with state := .closed, ptyAlive := false }

/-- Modelled from the spec: manager-level error taxonomy (§4.6, §7). -/
inductive MgrError where
  | notFound
  | noActiveSession
deriving DecidableEq

/-- Modelled from the spec: a session-creation configuration (§6). -/
structure SessionConfig where
  shell : String
  cwd : String
  cols : Nat
  rows : Nat
deriving DecidableEq

/-- Modelled from the spec: the SessionManager (§4.6): the session
collection keyed by id, the non-owning active-session pointer, and the
next fresh id.  The SessionManager implementation is absent from the
repository sources. -/
structure SessionManager where
  sessions : List (Nat × Session)
  active : Option Nat
  nextId : Nat
deriving DecidableEq

/-- The empty manager: no sessions, no active session. -/
def SessionManager.empty : SessionManager :=
  { sessions := [], active := none, nextId := 0 }

/-- Look a session up by id in the manager's collection. -/
def SessionManager.find (m : SessionManager) (id : Nat) : Option Session :=
  m.sessions.lookup id

/-- Modelled from the spec: `create(config)` (§4.6): allocates a fresh
id, spawns the session `Ready` with a live PTY and an empty buffer, and
appends it to the collection; the active pointer is untouched. -/
def SessionManager.create (m : SessionManager) (cfg : SessionConfig) :
    SessionManager × Nat :=
  let id := m.nextId
  let s : Session :=
    { id := id, shell := cfg.shell, state := .ready, ptyAlive := true,
      buffer := { text := [], chunkCount := 0, idleMs := 0, elapsedMs := 0 } }
  ({ sessions := m.sessions ++ [(id, s)], active := m.active, nextId := id + 1 }, id)

/-- The manager obtained from the empty manager by a sequence of
`createSession` calls. -/
def buildManager (cfgs : List SessionConfig) : SessionManager :=
  cfgs.foldl (fun m cfg => (m.create cfg).1) SessionManager.empty

/-- Modelled from the spec: `setActive(id)` (§4.6): fails with
`NotFound` on an unknown id, otherwise repoints the active-session
pointer. -/
def SessionManager.setActive (m : SessionManager) (id : Nat) :
    Except MgrError SessionManager :=
  match m.find id with
  | some _ => .ok { m with active := some id }
  | none => .error .notFound

/-- Modelled from the spec: `getActive()` (§4.6): `NoActiveSession`
when the pointer is unset, otherwise the session the pointer names. -/
def SessionManager.getActive (m : SessionManager) :
    Except MgrError (Nat × Session) :=
  match m.active with
  | none => .error .noActiveSession
  | some id =>
    match m.find id with
    | some s => .ok (id, s)
    | none => .error .notFound

/-- Modelled from the spec: `terminate(sessionId)` at the manager
boundary (§6, §4.5): fails with `NotFound` on an unknown id, otherwise
terminates that session in place — it enters `Closed` and its PTY
process is released. -/
def SessionManager.terminateSession (m : SessionManager) (id : Nat) :
    Except MgrError SessionManager :=
  match m.find id with
  | some _ =>
    .ok { m with
      sessions := m.sessions.map (fun p => if p.1 = id then (p.1, p.2.terminate) else p) }
  | none => .error .notFound

/-- A concrete buffer state used to exercise the model. -/
def sampleBuffer : BufferState :=
  { text := ['h', 'i'], chunkCount := 1, idleMs := 0, elapsedMs := 5 }

/-- A concrete completion policy with marker injection enabled. -/
def samplePolicy : CompletionPolicy :=
  { promptPatterns := [['$', ' ']], idleTimeoutMs := 100, injectMarkers := true,
    endMarker := ['E', 'N', 'D'], wantExitCode := true, hardCeilingTicks := 3 }

/-- A concrete completion policy with marker injection disabled. -/
def samplePolicyNoMark : CompletionPolicy :=
  { promptPatterns := [['$', ' ']], idleTimeoutMs := 100, injectMarkers := false,
    endMarker := ['E', 'N', 'D'], wantExitCode := false, hardCeilingTicks := 3 }

/-- A concrete session with an execution in flight. -/
def busySession : Session :=
  { id := 0, shell := "bash", state := .busy, ptyAlive := true, buffer := sampleBuffer }

/-- A concrete idle session ready to execute. -/
def readySession : Session :=
  { id := 1, shell := "bash", state := .ready, ptyAlive := true,
    buffer := { text := [], chunkCount := 0, idleMs := 0, elapsedMs := 0 } }

/-- A concrete buffer whose text holds command output followed by the
end marker and the shell's reported exit code. -/
def sampleMarkerBuffer : BufferState :=
  { text := ['h', 'i'] ++ (['E', 'N', 'D'] ++ (natToChars 0 ++ [])),
    chunkCount := 1, idleMs := 0, elapsedMs := 5 }

/-- The buffer trace of a command that has terminated normally: the
marker and exit code are present from the first evaluation tick. -/
def sampleMarkerTrace : Nat → BufferState :=
  fun _ => sampleMarkerBuffer

/-- A quiescent buffer state that matches no prompt and holds no
marker, with the idle timeout already exceeded. -/
def sampleIdleBuffer : BufferState :=
  { text := ['x'], chunkCount := 1, idleMs := 200, elapsedMs := 200 }

/-- A quiescent buffer trace that matches no prompt and holds no
marker, with the idle timeout already exceeded. -/
def sampleIdleTrace : Nat → BufferState :=
  fun _ => sampleIdleBuffer

/-- A buffer state on which no detection rule fires: no marker, no
prompt match, idle time below the idle timeout. -/
def sampleQuietBuffer : BufferState :=
  { text := ['x'], chunkCount := 1, idleMs := 50, elapsedMs := 50 }

/-- A buffer trace on which no detection rule ever fires: no marker, no
prompt match, idle time below the idle timeout. -/
def sampleQuietTrace : Nat → BufferState :=
  fun _ => sampleQuietBuffer

/-- A concrete session-creation configuration. -/
def cfgA : SessionConfig :=
  { shell := "bash", cwd := "/", cols := 80, rows := 30 }

/-- A second concrete session-creation configuration. -/
def cfgB : SessionConfig :=
  { shell := "zsh", cwd := "/tmp", cols := 80, rows := 30 }

/-- A buffer whose tail matches a prompt pattern while the end marker
and trailing exit code are simultaneously present. -/
def promptAndMarkerBuffer : BufferState :=
  { text := ['E', 'N', 'D', '0', '$', ' '], chunkCount := 1, idleMs := 0,
    elapsedMs := 9 }

/-- The session that creating `cfgB` second (id 1) produces. -/
def sessB : Session :=
  { id := 1, shell := "zsh", state := .ready, ptyAlive := true,
    buffer := { text := [], chunkCount := 0, idleMs := 0, elapsedMs := 0 } }

/-- A concrete one-session manager holding the busy session under id
0. -/
def mgrBusy : SessionManager :=
  { sessions := [(0, busySession)], active := some 0, nextId := 1 }

end Core

/-! ## Properties of the validation script -/

/-- The result entry of a step always records that step's name. -/
theorem runStep_step (spawn : Validation.ValidationStep → Validation.SpawnResult)
    (st : Validation.ValidationStep) :
    (Validation.runStep spawn st).step = st.name := by
  simp only [Validation.runStep]
  split <;> rfl

/-- A step's result entry carries no output exactly when the step
passed. -/
theorem runStep_output_none_iff
    (spawn : Validation.ValidationStep → Validation.SpawnResult)
    (st : Validation.ValidationStep) :
    (Validation.runStep spawn st).output = none ↔
      (Validation.runStep spawn st).passed = true := by
  simp only [Validation.runStep]
  split <;> simp

/-- A step's result entry is marked passed exactly when its spawn
status was zero. -/
theorem runStep_passed_iff
    (spawn : Validation.ValidationStep → Validation.SpawnResult)
    (st : Validation.ValidationStep) :
    (Validation.runStep spawn st).passed = true ↔ (spawn st).status = some 0 := by
  simp only [Validation.runStep]
  split <;> simp_all

/-- C9: the validation script's process exit code is 0 exactly when all
four steps returned spawn status 0, and it is 1 whenever some step has
a non-zero or null status. -/
theorem validation_exit_iff_all_pass
    (spawn : Validation.ValidationStep → Validation.SpawnResult) :
    (Validation.exitCode spawn = 0 ↔
      ∀ st ∈ Validation.steps, (spawn st).status = some 0) ∧
    ((∃ st ∈ Validation.steps, ¬ (spawn st).status = some 0) →
      Validation.exitCode spawn = 1) := by
  have hall : Validation.allPassed spawn = true ↔
      ∀ st ∈ Validation.steps, (spawn st).status = some 0 := by
    simp [Validation.allPassed, Validation.steps, Bool.and_eq_true,
      decide_eq_true_iff, List.forall_mem_cons]
    tauto
  constructor
  · rw [← hall]
    unfold Validation.exitCode
    split <;> simp_all
  · intro ⟨st, hmem, hne⟩
    unfold Validation.exitCode
    split
    · exact absurd (hall.mp (by assumption) st hmem) hne
    · rfl

/-- C9 witness: with every step reporting status 0 the script exits
with code 0. -/
theorem validation_exit_iff_all_pass_witness :
    Validation.exitCode (fun _ => { status := some 0, stdout := "", stderr := "" }) = 0 :=
  (validation_exit_iff_all_pass
    (fun _ => { status := some 0, stdout := "", stderr := "" })).1.mpr (by decide)

/-- C10: the validation script always produces exactly one result entry
per step, in the fixed order Type Check, Lint, Tests, Build, regardless
of failures, and a result entry records output exactly when its step
failed. -/
theorem validation_runs_all_steps
    (spawn : Validation.ValidationStep → Validation.SpawnResult) :
    (Validation.results spawn).map Validation.StepOutcome.step =
      ["Type Check", "Lint", "Tests", "Build"] ∧
    ∀ r ∈ Validation.results spawn, (r.output = none ↔ r.passed = true) := by
  constructor
  · simp [Validation.results, Validation.steps, runStep_step]
  · intro r hr
    simp only [Validation.results, List.mem_map] at hr
    obtain ⟨st, _, rfl⟩ := hr
    exact runStep_output_none_iff spawn st

/-- C10 witness: with a failing Lint step the script still reports all
four steps in order. -/
theorem validation_runs_all_steps_witness :
    (Validation.results
      (fun st => if st.name = "Lint"
        then { status := some 1, stdout := "o", stderr := "" }
        else { status := some 0, stdout := "", stderr := "" })).map
      Validation.StepOutcome.step = ["Type Check", "Lint", "Tests", "Build"] :=
  (validation_runs_all_steps
    (fun st => if st.name = "Lint"
      then { status := some 1, stdout := "o", stderr := "" }
      else { status := some 0, stdout := "", stderr := "" })).1

/-! ## Session-level properties -/

/-- C2: while a session is `Busy`, a second `execute` on it fails
immediately with `SessionBusy` — it is neither blocked nor queued. -/
theorem execute_busy_sessionBusy (s : Core.Session)
    (policy : Core.CompletionPolicy) (trace : Nat → Core.BufferState)
    (h : s.state = Core.SessionState.busy) :
    s.execute policy trace = .error .sessionBusy := by
  unfold Core.Session.execute
  rw [h]

/-- C2 witness: the concrete busy session refuses a second `execute`
with `SessionBusy`. -/
theorem execute_busy_sessionBusy_witness :
    Core.busySession.state = Core.SessionState.busy ∧
    Core.busySession.execute Core.samplePolicy Core.sampleQuietTrace =
      .error .sessionBusy :=
  ⟨rfl, execute_busy_sessionBusy Core.busySession Core.samplePolicy
    Core.sampleQuietTrace rfl⟩

/-- Looking up a key after updating exactly that key's entry in an
association list yields the updated value. -/
theorem lookup_map_update (f : Core.Session → Core.Session) (id : Nat) :
    ∀ l : List (Nat × Core.Session),
      List.lookup id (l.map (fun p => if p.1 = id then (p.1, f p.2) else p)) =
        (List.lookup id l).map f
  | [] => rfl
  | (k, v) :: tl => by
    by_cases hk : k = id
    · subst hk
      simp only [List.map_cons, if_pos rfl]
      simp [List.lookup_cons]
    · simp only [List.map_cons, if_neg hk]
      rw [List.lookup_cons, List.lookup_cons, beq_false_of_ne (fun e => hk e.symm)]
      simp only [Bool.false_eq_true, reduceIte]
      exact lookup_map_update f id tl

/-- C4: `terminate(sessionId)` on any existing session — in any
lifecycle state, including `Busy` — leaves that session `Closed` with
its PTY process no longer alive. -/
theorem terminateSession_closes_and_kills (m : Core.SessionManager)
    (id : Nat) (s : Core.Session) (h : m.find id = some s) :
    ∃ m', m.terminateSession id = .ok m' ∧
      m'.find id = some s.terminate ∧
      s.terminate.state = Core.SessionState.closed ∧
      s.terminate.ptyAlive = false := by
  refine ⟨{ m with sessions := (m.sessions.map (fun p => if p.1 = id then (p.1, p.2.terminate) else p)) }, ?_, ?_, rfl, rfl⟩
  · unfold Core.SessionManager.terminateSession
    rw [h]
  · show List.lookup id (m.sessions.map
      (fun p => if p.1 = id then (p.1, p.2.terminate) else p)) = some s.terminate
    rw [lookup_map_update]
    have h2 : List.lookup id m.sessions = some s := h
    rw [h2]
    rfl

/-- C4 witness: terminating the concrete busy session closes it and
releases its PTY process. -/
theorem terminateSession_closes_and_kills_witness :
    Core.mgrBusy.find 0 = some Core.busySession ∧
    ∃ m', Core.mgrBusy.terminateSession 0 = .ok m' ∧
      m'.find 0 = some Core.busySession.terminate ∧
      Core.busySession.terminate.state = Core.SessionState.closed ∧
      Core.busySession.terminate.ptyAlive = false :=
  ⟨by decide, terminateSession_closes_and_kills Core.mgrBusy 0 Core.busySession (by decide)⟩

/-- C7: cancelling an in-flight execution returns the buffer content
accumulated up to the cancellation point as the result and transitions
the session back to `Ready`. -/
theorem cancel_returns_partial_buffer (s : Core.Session)
    (h : s.state = Core.SessionState.busy) :
    ∃ s' r, s.cancel = .ok (s', r) ∧
      r.output = s.buffer.text ∧
      r.reason = Core.CompletionReason.killed ∧
      s'.state = Core.SessionState.ready := by
  refine ⟨{ s with state := Core.SessionState.ready },
    { exitCode := none, output := s.buffer.text,
      durationMs := s.buffer.elapsedMs, reason := Core.CompletionReason.killed },
    ?_, rfl, rfl, rfl⟩
  unfold Core.Session.cancel
  rw [h]

/-- C7 witness: cancelling the concrete busy session yields its
accumulated (non-empty) buffer text and a `Ready` session. -/
theorem cancel_returns_partial_buffer_witness :
    Core.busySession.state = Core.SessionState.busy ∧
    ∃ s' r, Core.busySession.cancel = .ok (s', r) ∧
      r.output = Core.busySession.buffer.text ∧
      r.reason = Core.CompletionReason.killed ∧
      s'.state = Core.SessionState.ready :=
  ⟨rfl, cancel_returns_partial_buffer Core.busySession rfl⟩

/-- When the active pointer names an id the collection holds,
`getActive` returns that id's session. -/
theorem getActive_some (m : Core.SessionManager) (id : Nat) (s : Core.Session)
    (ha : m.active = some id) (hf : m.find id = some s) :
    m.getActive = .ok (id, s) := by
  simp only [Core.SessionManager.getActive, ha, hf]

/-- C8: after any sequence of `createSession` calls, `setActive` on an
id that exists succeeds, and `getActive` then returns exactly the
session stored under that id. -/
theorem getActive_after_setActive (cfgs : List Core.SessionConfig)
    (id : Nat) (s : Core.Session)
    (h : (Core.buildManager cfgs).find id = some s) :
    ∃ m', (Core.buildManager cfgs).setActive id = .ok m' ∧
      m'.getActive = .ok (id, s) := by
  refine ⟨{ Core.buildManager cfgs with active := some id }, ?_, ?_⟩
  · unfold Core.SessionManager.setActive
    rw [h]
  · exact getActive_some _ id s rfl h

/-- C8 witness: two `createSession` calls, `setActive` on the second
id, then `getActive` returns the second session exactly. -/
theorem getActive_after_setActive_witness :
    (Core.buildManager [Core.cfgA, Core.cfgB]).find 1 = some Core.sessB ∧
    ∃ m', (Core.buildManager [Core.cfgA, Core.cfgB]).setActive 1 = .ok m' ∧
      m'.getActive = .ok (1, Core.sessB) :=
  ⟨by decide, getActive_after_setActive [Core.cfgA, Core.cfgB] 1 Core.sessB (by decide)⟩

/-! ## Completion-detector properties -/

/-- C5: when marker injection is enabled and the end marker with its
trailing exit code is present, the detector declares completion by the
marker path even when a prompt match or the idle-timeout condition
holds on the same buffer state. -/
theorem detect_marker_preempts (policy : Core.CompletionPolicy)
    (b : Core.BufferState) (c : Nat)
    (h1 : policy.injectMarkers = true)
    (h2 : Core.markerExitCode policy.endMarker b.text = some c)
    (h3 : Core.promptHit policy b = true ∨ policy.idleTimeoutMs ≤ b.idleMs) :
    Core.detect policy b =
      some { reason := Core.CompletionReason.markerMatched, exitCode := some c } := by
  simp [Core.detect, h1, h2]

/-- C5 witness: a buffer in which the prompt pattern matches the tail
and the marker with exit code 0 is present is resolved by the marker
path. -/
theorem detect_marker_preempts_witness :
    Core.samplePolicy.injectMarkers = true ∧
    Core.markerExitCode Core.samplePolicy.endMarker
      Core.promptAndMarkerBuffer.text = some 0 ∧
    Core.promptHit Core.samplePolicy Core.promptAndMarkerBuffer = true ∧
    Core.detect Core.samplePolicy Core.promptAndMarkerBuffer =
      some { reason := Core.CompletionReason.markerMatched, exitCode := some 0 } :=
  ⟨rfl, by decide, by decide,
    detect_marker_preempts Core.samplePolicy Core.promptAndMarkerBuffer 0
      rfl (by decide) (Or.inl (by decide))⟩

/-- C6: with marker injection disabled and no prompt pattern ever
matching, any completion the evaluation loop declares — by idle timeout
or by the hard ceiling — carries reason `timeout` and an absent exit
code. -/
theorem detectLoop_idle_timeout_absent_exit (policy : Core.CompletionPolicy)
    (trace : Nat → Core.BufferState) (fuel t0 : Nat)
    (h1 : policy.injectMarkers = false)
    (h2 : ∀ t, Core.promptHit policy (trace t) = false) :
    (Core.detectLoop policy trace fuel t0).reason = Core.CompletionReason.timeout ∧
    (Core.detectLoop policy trace fuel t0).exitCode = none := by
  induction fuel generalizing t0 with
  | zero => exact ⟨rfl, rfl⟩
  | succ n ih =>
    have hd : Core.detect policy (trace t0) =
        (if policy.idleTimeoutMs ≤ (trace t0).idleMs
          then some { reason := Core.CompletionReason.timeout, exitCode := none }
          else none) := by
      unfold Core.detect
      rw [h1]
      simp [h2 t0]
    simp only [Core.detectLoop]
    rw [hd]
    by_cases hc : policy.idleTimeoutMs ≤ (trace t0).idleMs
    · rw [if_pos hc]
      exact ⟨rfl, rfl⟩
    · rw [if_neg hc]
      exact ih (t0 + 1)

/-- C6 witness: a quiescent markerless execution completes with reason
`timeout` and an absent exit code. -/
theorem detectLoop_idle_timeout_absent_exit_witness :
    Core.samplePolicyNoMark.injectMarkers = false ∧
    (Core.detectLoop Core.samplePolicyNoMark Core.sampleIdleTrace 2 0).reason =
      Core.CompletionReason.timeout ∧
    (Core.detectLoop Core.samplePolicyNoMark Core.sampleIdleTrace 2 0).exitCode =
      none :=
  ⟨rfl, detectLoop_idle_timeout_absent_exit Core.samplePolicyNoMark
    Core.sampleIdleTrace 2 0 rfl
    (by
      intro t
      show Core.promptHit Core.samplePolicyNoMark Core.sampleIdleBuffer = false
      decide)⟩

/-- When no detection rule ever fires, the bounded loop runs its fuel
out and returns the hard-ceiling timeout result. -/
theorem detectLoop_all_none (policy : Core.CompletionPolicy)
    (trace : Nat → Core.BufferState)
    (h : ∀ t, Core.detect policy (trace t) = none) :
    ∀ fuel t0, Core.detectLoop policy trace fuel t0 =
      Core.timeoutResult (trace (t0 + fuel))
  | 0, t0 => by simp [Core.detectLoop]
  | fuel + 1, t0 => by
    simp only [Core.detectLoop, h t0]
    rw [detectLoop_all_none policy trace h fuel (t0 + 1)]
    have harith : t0 + 1 + fuel = t0 + (fuel + 1) := by omega
    rw [harith]

/-- C3: on a `Ready` session, when no detection rule (marker, prompt or
idle timeout) ever declares completion, `execute` still returns a
structured result: the hard ceiling fires and yields reason `timeout`
with an absent exit code — `execute` is bounded and never throws on
detection failure. -/
theorem execute_ceiling_timeout (s : Core.Session)
    (policy : Core.CompletionPolicy) (trace : Nat → Core.BufferState)
    (h1 : s.state = Core.SessionState.ready)
    (h2 : ∀ t, Core.detect policy (trace t) = none) :
    s.execute policy trace =
      .ok (s, Core.timeoutResult (trace policy.hardCeilingTicks)) ∧
    (Core.timeoutResult (trace policy.hardCeilingTicks)).reason =
      Core.CompletionReason.timeout ∧
    (Core.timeoutResult (trace policy.hardCeilingTicks)).exitCode = none := by
  refine ⟨?_, rfl, rfl⟩
  unfold Core.Session.execute
  rw [h1]
  show Except.ok (s, Core.detectLoop policy trace policy.hardCeilingTicks 0) = _
  rw [detectLoop_all_none policy trace h2 policy.hardCeilingTicks 0]
  rw [Nat.zero_add]

/-- C3 witness: a command producing no marker, no prompt match and
steady sub-threshold idle readings still returns a structured timeout
result. -/
theorem execute_ceiling_timeout_witness :
    Core.readySession.state = Core.SessionState.ready ∧
    Core.readySession.execute Core.samplePolicy Core.sampleQuietTrace =
      .ok (Core.readySession,
        Core.timeoutResult (Core.sampleQuietTrace Core.samplePolicy.hardCeilingTicks)) :=
  ⟨rfl, (execute_ceiling_timeout Core.readySession Core.samplePolicy
    Core.sampleQuietTrace rfl
    (by
      intro t
      show Core.detect Core.samplePolicy Core.sampleQuietBuffer = none
      decide)).1⟩

/-! ## Marker-path exit-code recovery -/

/-- The printable digit characters 0-9 are digits. -/
theorem digitChar_isDigit : ∀ d < 10, (Nat.digitChar d).isDigit = true := by
  decide

/-- Printing a digit below 10 and reading it back is the identity. -/
theorem charVal_digitChar : ∀ d < 10, Core.charVal (Nat.digitChar d) = d := by
  decide

/-- Every character printed by the decimal printer is a digit. -/
theorem natToCharsAux_digits :
    ∀ fuel n, n < fuel → ∀ c ∈ Core.natToCharsAux fuel n, c.isDigit = true
  | 0, n, h => absurd h (Nat.not_lt_zero n)
  | fuel + 1, n, h => by
    unfold Core.natToCharsAux
    by_cases h10 : n < 10
    · rw [if_pos h10]
      intro c hc
      rw [List.mem_singleton] at hc
      subst hc
      exact digitChar_isDigit n h10
    · rw [if_neg h10]
      intro c hc
      rcases List.mem_append.mp hc with h1 | h1
      · have hdiv : n / 10 < fuel := by
          have := Nat.div_lt_self (by omega : 0 < n) (by norm_num : 1 < 10)
          omega
        exact natToCharsAux_digits fuel (n / 10) hdiv c h1
      · rw [List.mem_singleton] at h1
        subst h1
        exact digitChar_isDigit (n % 10) (Nat.mod_lt n (by norm_num))

/-- The decimal printer never returns an empty string. -/
theorem natToCharsAux_ne_nil :
    ∀ fuel n, n < fuel → Core.natToCharsAux fuel n ≠ []
  | 0, n, h => absurd h (Nat.not_lt_zero n)
  | fuel + 1, n, _ => by
    unfold Core.natToCharsAux
    by_cases h10 : n < 10
    · rw [if_pos h10]
      simp
    · rw [if_neg h10]
      simp

/-- Folding one more digit multiplies the accumulated value by ten. -/
theorem digitsToNat_append (l : List Char) (c : Char) :
    Core.digitsToNat (l ++ [c]) = Core.digitsToNat l * 10 + Core.charVal c := by
  simp [Core.digitsToNat, List.foldl_append]

/-- Reading back the decimal printer's output recovers the number. -/
theorem digitsToNat_natToCharsAux :
    ∀ fuel n, n < fuel → Core.digitsToNat (Core.natToCharsAux fuel n) = n
  | 0, n, h => absurd h (Nat.not_lt_zero n)
  | fuel + 1, n, h => by
    unfold Core.natToCharsAux
    by_cases h10 : n < 10
    · rw [if_pos h10]
      have hv : Core.digitsToNat [Nat.digitChar n] = Core.charVal (Nat.digitChar n) := by
        simp [Core.digitsToNat]
      rw [hv]
      exact charVal_digitChar n h10
    · rw [if_neg h10]
      rw [digitsToNat_append]
      have hdiv : n / 10 < fuel := by
        have := Nat.div_lt_self (by omega : 0 < n) (by norm_num : 1 < 10)
        omega
      rw [digitsToNat_natToCharsAux fuel (n / 10) hdiv]
      rw [charVal_digitChar (n % 10) (Nat.mod_lt n (by norm_num))]
      omega

/-- Splitting digits off an all-digit run followed by a non-digit head
returns exactly that run and that tail. -/
theorem takeDigits_append :
    ∀ ds rest, (∀ c ∈ ds, c.isDigit = true) → Core.headIsDigit rest = false →
      Core.takeDigits (ds ++ rest) = (ds, rest)
  | [], rest, _, hrest => by
    cases rest with
    | nil => rfl
    | cons c cs =>
      have hc : c.isDigit = false := hrest
      simp [Core.takeDigits, hc]
  | d :: ds, rest, hds, hrest => by
    have hd : d.isDigit = true := hds d (List.mem_cons_self d ds)
    have htail := takeDigits_append ds rest
      (fun c hc => hds c (List.mem_cons_of_mem d hc)) hrest
    simp [Core.takeDigits, hd, htail]

/-- Parsing the printed exit code followed by non-digit text yields the
code back. -/
theorem parseLeadingNat_natToChars (n : Nat) (rest : List Char)
    (hrest : Core.headIsDigit rest = false) :
    Core.parseLeadingNat (Core.natToChars n ++ rest) = some n := by
  unfold Core.parseLeadingNat Core.natToChars
  rw [takeDigits_append (Core.natToCharsAux (n + 1) n) rest
    (natToCharsAux_digits (n + 1) n (by omega)) hrest]
  have hne := natToCharsAux_ne_nil (n + 1) n (by omega)
  simp only [List.isEmpty_iff]
  rw [if_neg hne]
  rw [digitsToNat_natToCharsAux (n + 1) n (by omega)]

/-- The first-occurrence search finds the injected marker when the
marker occurs nowhere earlier in the buffer, and returns the text that
follows it. -/
theorem suffixAfter_marker :
    ∀ (marker out rest : List Char), marker ≠ [] →
      (∀ i < out.length,
        marker.isPrefixOf (out.drop i ++ (marker ++ rest)) = false) →
      Core.suffixAfter marker (out ++ (marker ++ rest)) = some rest
  | marker, [], rest, hm, _ => by
    cases marker with
    | nil => exact absurd rfl hm
    | cons m0 ms =>
      have hp : (m0 :: ms).isPrefixOf (m0 :: (ms ++ rest)) = true := by
        have := List.isPrefixOf_iff_prefix.mpr (List.prefix_append (m0 :: ms) rest)
        simpa using this
      show Core.suffixAfter (m0 :: ms) (m0 :: (ms ++ rest)) = some rest
      unfold Core.suffixAfter
      rw [if_pos hp]
      show some (List.drop (m0 :: ms).length ((m0 :: ms) ++ rest)) = some rest
      rw [List.drop_left (m0 :: ms) rest]
  | marker, c :: out, rest, hm, hno => by
    show Core.suffixAfter marker (c :: (out ++ (marker ++ rest))) = some rest
    have h0 : marker.isPrefixOf (c :: (out ++ (marker ++ rest))) = false := by
      have := hno 0 (by simp)
      simpa using this
    unfold Core.suffixAfter
    rw [if_neg (by simp [h0])]
    exact suffixAfter_marker marker out rest hm (fun i hi => by
      have := hno (i + 1) (by simpa using Nat.succ_lt_succ hi)
      simpa using this)

/-- When the buffer holds output, then the injected end marker, then
the shell's exit code and non-digit text, and the marker occurs nowhere
earlier, the marker path recovers exactly that exit code. -/
theorem markerExitCode_found (marker out rest : List Char) (code : Nat)
    (hm : marker ≠ [])
    (hrest : Core.headIsDigit rest = false)
    (hno : ∀ i < out.length, marker.isPrefixOf
      (out.drop i ++ (marker ++ (Core.natToChars code ++ rest))) = false) :
    Core.markerExitCode marker
      (out ++ (marker ++ (Core.natToChars code ++ rest))) = some code := by
  unfold Core.markerExitCode
  rw [suffixAfter_marker marker out (Core.natToChars code ++ rest) hm hno]
  show Core.parseLeadingNat (Core.natToChars code ++ rest) = some code
  exact parseLeadingNat_natToChars code rest hrest

/-- The evaluation loop returns the verdict of the first tick at which
the detector fires, provided that tick lies below the fuel. -/
theorem detectLoop_first_hit (policy : Core.CompletionPolicy)
    (trace : Nat → Core.BufferState) (d : Core.DetectOutcome) :
    ∀ T fuel t0, (∀ k < T, Core.detect policy (trace (t0 + k)) = none) →
      Core.detect policy (trace (t0 + T)) = some d → T < fuel →
      Core.detectLoop policy trace fuel t0 = Core.finalize (trace (t0 + T)) d
  | 0, fuel, t0, _, hd, hT => by
    cases fuel with
    | zero => omega
    | succ f =>
      have hd0 : Core.detect policy (trace t0) = some d := by simpa using hd
      simp only [Core.detectLoop]
      rw [hd0]
      show Core.finalize (trace t0) d = Core.finalize (trace (t0 + 0)) d
      simp
  | T + 1, fuel, t0, hnone, hd, hT => by
    cases fuel with
    | zero => omega
    | succ f =>
      have h0 : Core.detect policy (trace t0) = none := by
        simpa using hnone 0 (by omega)
      simp only [Core.detectLoop]
      rw [h0]
      show Core.detectLoop policy trace f (t0 + 1) =
        Core.finalize (trace (t0 + (T + 1))) d
      have e1 : t0 + (T + 1) = t0 + 1 + T := by omega
      rw [e1]
      refine detectLoop_first_hit policy trace d T f (t0 + 1) ?_ ?_ (by omega)
      · intro k hk
        have := hnone (k + 1) (by omega)
        have e2 : t0 + (k + 1) = t0 + 1 + k := by omega
        rwa [e2] at this
      · have e3 : t0 + (T + 1) = t0 + 1 + T := by omega
        rwa [e3] at hd

/-- C1: with marker injection enabled, executing a command that
terminates normally — its buffer trace eventually shows the command
output, the end marker and the shell's reported exit code, with no
detection firing earlier and no marker collision — returns a
CommandResult whose exit code is present and equal to the code the
shell reported, via the marker path. -/
theorem execute_marker_exit_code (s : Core.Session)
    (policy : Core.CompletionPolicy) (trace : Nat → Core.BufferState)
    (T code : Nat) (out rest : List Char)
    (hready : s.state = Core.SessionState.ready)
    (hmark : policy.injectMarkers = true)
    (hmne : policy.endMarker ≠ [])
    (htext : (trace T).text =
      out ++ (policy.endMarker ++ (Core.natToChars code ++ rest)))
    (hrest : Core.headIsDigit rest = false)
    (hno : ∀ i < out.length, policy.endMarker.isPrefixOf
      (out.drop i ++ (policy.endMarker ++ (Core.natToChars code ++ rest))) = false)
    (hbefore : ∀ t < T, Core.detect policy (trace t) = none)
    (hT : T < policy.hardCeilingTicks) :
    ∃ s' r, s.execute policy trace = .ok (s', r) ∧
      r.exitCode = some code ∧ r.reason = Core.CompletionReason.markerMatched := by
  have hmec : Core.markerExitCode policy.endMarker (trace T).text = some code := by
    rw [htext]
    exact markerExitCode_found policy.endMarker out rest code hmne hrest hno
  have hdet : Core.detect policy (trace T) =
      some { reason := Core.CompletionReason.markerMatched, exitCode := some code } := by
    simp [Core.detect, hmark, hmec]
  have hloop := detectLoop_first_hit policy trace
    { reason := Core.CompletionReason.markerMatched, exitCode := some code }
    T policy.hardCeilingTicks 0
    (fun k hk => by simpa using hbefore k hk)
    (by simpa using hdet) hT
  refine ⟨s, Core.finalize (trace (0 + T))
    { reason := Core.CompletionReason.markerMatched, exitCode := some code },
    ?_, rfl, rfl⟩
  unfold Core.Session.execute
  rw [hready]
  show Except.ok (s, Core.detectLoop policy trace policy.hardCeilingTicks 0) = _
  rw [hloop]

/-- C1 witness: an `echo`-style command whose buffer shows `hi`, the
end marker and exit code 0 yields a result carrying exit code 0 by the
marker path. -/
theorem execute_marker_exit_code_witness :
    Core.readySession.state = Core.SessionState.ready ∧
    Core.samplePolicy.injectMarkers = true ∧
    ∃ s' r, Core.readySession.execute Core.samplePolicy Core.sampleMarkerTrace =
        .ok (s', r) ∧
      r.exitCode = some 0 ∧ r.reason = Core.CompletionReason.markerMatched :=
  ⟨rfl, rfl,
    execute_marker_exit_code Core.readySession Core.samplePolicy
      Core.sampleMarkerTrace 0 0 ['h', 'i'] []
      rfl rfl (by decide) (by decide) (by decide) (by decide)
      (fun t ht => absurd ht (Nat.not_lt_zero t)) (by decide)⟩
